import Mathlib

/-!
# Verification of the image-editing session core

Shallow embedding of the repository's core logic:

* `fileToPart` and its platform collaborator `readAsDataURL` (the Encoder),
  from `src/unnamed/part_000` (the Gemini service module);
* `editImageWithGemini` (the Generation Client), from the same module, with
  the remote call and the file reader abstracted as an explicit environment;
* `handleGenerate` / `handleReset` (the Session State Controller),
  from `src/App.tsx`.

JavaScript truthiness conventions used throughout: an absent (`undefined`)
string field and the empty string are both falsy, so optional string fields
whose only use is a truthiness test are modelled as `String` with `""`
standing for "absent or empty"; object-valued optional fields are modelled
with `Option`.  `x || y` on strings is `jsOr`; `trim()` is `jsTrim`;
`slice(0, n)` is `jsSlice`.
-/

/-- JavaScript `a || b` for strings: `b` when `a` is falsy (empty), else `a`. -/
def jsOr (a b : String) : String := if a = "" then b else a

/-- JavaScript `s.slice(0, n)`: the first `n` characters of `s`. -/
def jsSlice (s : String) (n : Nat) : String := ⟨s.toList.take n⟩

/-- A character JavaScript `trim()` removes (the ASCII whitespace
characters, which agrees with JavaScript on every input in the claims). -/
def jsIsSpace (c : Char) : Bool :=
  c = ' ' || c = '\t' || c = '\n' || c = '\r'

/-- JavaScript `s.trim()`. -/
def jsTrim (s : String) : String :=
  ⟨((s.toList.dropWhile jsIsSpace).reverse.dropWhile jsIsSpace).reverse⟩

/-- JavaScript `String.prototype.split` on a single-character separator,
on an explicit character list. -/
def splitChar (sep : Char) : List Char → List (List Char)
  | [] => [[]]
  | c :: rest =>
    match splitChar sep rest with
    | [] => [[]]
    | h :: t => if c = sep then [] :: h :: t else (c :: h) :: t

/-! ## Base64 (platform collaborator used by `FileReader.readAsDataURL`) -/

/-- The 64-character base64 alphabet. -/
def b64Alphabet : List Char :=
  "ABCDEFGHIJKLMNOPQRSTUVWXYZabcdefghijklmnopqrstuvwxyz0123456789+/".toList

/-- Character for a six-bit value. -/
def sextetChar (n : Nat) : Char := b64Alphabet.getD n 'A'

/-- Six-bit value of a base64 character. -/
def sextetVal (c : Char) : Nat := b64Alphabet.indexOf c

/-- Standard base64 encoding of a byte sequence (bytes as `Nat < 256`),
with `=` padding. -/
def base64EncodeBytes : List Nat → List Char
  | [] => []
  | [a] => [sextetChar (a / 4), sextetChar (a % 4 * 16), '=', '=']
  | [a, b] => [sextetChar (a / 4), sextetChar (a % 4 * 16 + b / 16),
               sextetChar (b % 16 * 4), '=']
  | a :: b :: c :: rest =>
      sextetChar (a / 4) :: sextetChar (a % 4 * 16 + b / 16) ::
      sextetChar (b % 16 * 4 + c / 64) :: sextetChar (c % 64) ::
      base64EncodeBytes rest

/-- Standard base64 decoding, quartets of characters to bytes. -/
def base64DecodeChars : List Char → List Nat
  | c1 :: c2 :: c3 :: c4 :: rest =>
    if c3 = '=' then
      [sextetVal c1 * 4 + sextetVal c2 / 16]
    else if c4 = '=' then
      [sextetVal c1 * 4 + sextetVal c2 / 16,
       sextetVal c2 % 16 * 16 + sextetVal c3 / 4]
    else
      (sextetVal c1 * 4 + sextetVal c2 / 16) ::
      (sextetVal c2 % 16 * 16 + sextetVal c3 / 4) ::
      (sextetVal c3 % 4 * 64 + sextetVal c4) ::
      base64DecodeChars rest
  | _ => []

lemma sextetVal_sextetChar : ∀ n, n < 64 → sextetVal (sextetChar n) = n := by
  decide

lemma sextetChar_ne_pad : ∀ n, n < 64 → sextetChar n ≠ '=' := by
  decide

/-- Decoding inverts encoding on byte sequences. -/
theorem base64_roundtrip :
    ∀ bs : List Nat, (∀ b ∈ bs, b < 256) →
      base64DecodeChars (base64EncodeBytes bs) = bs
  | [], _ => rfl
  | [a], h => by
    have ha : a < 256 := h a (by simp)
    have h1 := sextetVal_sextetChar (a / 4) (by omega)
    have h2 := sextetVal_sextetChar (a % 4 * 16) (by omega)
    simp [base64EncodeBytes, base64DecodeChars, h1, h2]
    all_goals omega
  | [a, b], h => by
    have ha : a < 256 := h a (by simp)
    have hb : b < 256 := h b (by simp)
    have h1 := sextetVal_sextetChar (a / 4) (by omega)
    have h2 := sextetVal_sextetChar (a % 4 * 16 + b / 16) (by omega)
    have h3 := sextetVal_sextetChar (b % 16 * 4) (by omega)
    have hn3 := sextetChar_ne_pad (b % 16 * 4) (by omega)
    simp [base64EncodeBytes, base64DecodeChars, h1, h2, h3, hn3]
    all_goals omega
  | a :: b :: c :: rest, h => by
    have ha : a < 256 := h a (by simp)
    have hb : b < 256 := h b (by simp)
    have hc : c < 256 := h c (by simp)
    have ih := base64_roundtrip rest (fun x hx => h x (by simp [hx]))
    have h1 := sextetVal_sextetChar (a / 4) (by omega)
    have h2 := sextetVal_sextetChar (a % 4 * 16 + b / 16) (by omega)
    have h3 := sextetVal_sextetChar (b % 16 * 4 + c / 64) (by omega)
    have h4 := sextetVal_sextetChar (c % 64) (by omega)
    have hn3 := sextetChar_ne_pad (b % 16 * 4 + c / 64) (by omega)
    have hn4 := sextetChar_ne_pad (c % 64) (by omega)
    simp [base64EncodeBytes, base64DecodeChars, h1, h2, h3, h4, hn3, hn4, ih]
    all_goals omega

lemma splitChar_of_not_mem {sep : Char} : ∀ {l : List Char}, sep ∉ l →
    splitChar sep l = [l]
  | [], _ => rfl
  | c :: rest, h => by
    have hrest : sep ∉ rest := fun hm => h (List.mem_cons_of_mem _ hm)
    have hc : c ≠ sep := fun he => h (he ▸ List.mem_cons_self c rest)
    simp [splitChar, splitChar_of_not_mem hrest, hc]

lemma splitChar_append {sep : Char} : ∀ {pre : List Char}, sep ∉ pre →
    ∀ rest : List Char,
      splitChar sep (pre ++ sep :: rest) = pre :: splitChar sep rest
  | [], _, rest => by
    cases hr : splitChar sep rest with
    | nil => simp [splitChar, hr]
    | cons h t => simp [splitChar, hr]
  | c :: pre, h, rest => by
    have hpre : sep ∉ pre := fun hm => h (List.mem_cons_of_mem _ hm)
    have hc : c ≠ sep := fun he => h (he ▸ List.mem_cons_self c pre)
    simp [splitChar, splitChar_append hpre rest, hc]

lemma sextetChar_ne_comma (n : Nat) : sextetChar n ≠ ',' := by
  by_cases h : n < 64
  · revert n
    decide
  · unfold sextetChar
    rw [List.getD_eq_default]
    · decide
    · have : b64Alphabet.length = 64 := by decide
      omega

lemma comma_not_mem_encode :
    ∀ bs : List Nat, ',' ∉ base64EncodeBytes bs
  | [] => by simp [base64EncodeBytes]
  | [a] => by
    simp [base64EncodeBytes]
    exact ⟨(sextetChar_ne_comma _).symm, (sextetChar_ne_comma _).symm⟩
  | [a, b] => by
    simp [base64EncodeBytes]
    exact ⟨(sextetChar_ne_comma _).symm, (sextetChar_ne_comma _).symm,
           (sextetChar_ne_comma _).symm⟩
  | a :: b :: c :: rest => by
    simp [base64EncodeBytes]
    exact ⟨(sextetChar_ne_comma _).symm, (sextetChar_ne_comma _).symm,
           (sextetChar_ne_comma _).symm, (sextetChar_ne_comma _).symm,
           comma_not_mem_encode rest⟩

/-! ## Encoder (`fileToPart` in the Gemini service module) -/

/-- A browser `File`: raw bytes plus the declared media type (`file.type`). -/
structure JsFile where
  bytes : List Nat
  type : String
  deriving DecidableEq, Repr

/-- The `{ inlineData: { data, mimeType } }` part produced by `fileToPart`. -/
structure EncodedPart where
  data : List Char
  mimeType : String
  deriving DecidableEq, Repr

/-- Modelled from the spec: the platform collaborator
`FileReader.readAsDataURL`, which is not part of the repository.  It yields
`data:<media type>;base64,<base64 of the bytes>` for the read file. -/
def readAsDataURL (f : JsFile) : List Char :=
  "data:".toList ++ f.type.toList ++ ";base64,".toList ++
    base64EncodeBytes f.bytes

/-- The function `fileToPart` (successful read path): strips the data-URL prefix with
`reader.result.split(',')[1]` and pairs the base64 payload with the file's
declared type. -/
def fileToPart (f : JsFile) : EncodedPart :=
  { data := (splitChar ',' (readAsDataURL f)).getD 1 []
    mimeType := f.type }

lemma fileToPart_data (f : JsFile) (hm : ',' ∉ f.type.toList) :
    (fileToPart f).data = base64EncodeBytes f.bytes := by
  have hsplit : ";base64,".toList = ";base64".toList ++ [','] := by decide
  have hpre : ',' ∉ "data:".toList ++ f.type.toList ++ ";base64".toList := by
    intro hmem
    rcases List.mem_append.mp hmem with hmem | hmem
    · rcases List.mem_append.mp hmem with hmem | hmem
      · revert hmem; decide
      · exact hm hmem
    · revert hmem; decide
  have harr : readAsDataURL f =
      ("data:".toList ++ f.type.toList ++ ";base64".toList) ++
        ',' :: base64EncodeBytes f.bytes := by
    simp [readAsDataURL, hsplit]
  rw [fileToPart, harr, splitChar_append hpre,
      splitChar_of_not_mem (comma_not_mem_encode f.bytes)]
  rfl

/-! ## Generation Client (`editImageWithGemini`) -/

/-- Inline binary data of a response part.  `""` in either field models an
absent (`undefined`) field, which JavaScript treats exactly like `""` in the
truthiness tests `part.inlineData.data` and `part.inlineData.mimeType ||
'image/png'`. -/
structure InlineData where
  data : String
  mimeType : String
  deriving DecidableEq, Repr

/-- A content part of the remote response: optional inline data, optional
text (`""` models absent text). -/
structure ContentPart where
  inlineData : Option InlineData
  text : String
  deriving DecidableEq, Repr

/-- A response candidate; `parts` is `candidate.content.parts`, which the
declared interface may omit. -/
structure Candidate where
  parts : Option (List ContentPart)
  deriving DecidableEq, Repr

/-- The remote response: an optional candidate list. -/
structure GenResponse where
  candidates : Option (List Candidate)
  deriving DecidableEq, Repr

/-- The single uniform error the client signals (`new Error(message)`). -/
structure GenError where
  message : String
  deriving DecidableEq, Repr

/-- Outcome of the remote invocation: a response, or a thrown transport
fault carrying a message (`""` for a fault without a message). -/
inductive CallResult where
  | ok : GenResponse → CallResult
  | fault : String → CallResult
  deriving DecidableEq, Repr

/-- The environment of one generation attempt: whether the file read
rejects (and with what message), and what the remote call produces. -/
structure Env where
  readFault : Option String
  callResult : CallResult
  deriving DecidableEq, Repr

/-- The `for` loop over the first candidate's parts: first part whose
`inlineData` is present with truthy (non-empty) `data`. -/
def findImagePart : List ContentPart → Option InlineData
  | [] => none
  | p :: ps =>
    match p.inlineData with
    | some d => if d.data ≠ "" then some d else findImagePart ps
    | none => findImagePart ps

/-- The scan `parts.find(p => p.text)?.text`: first part with truthy text. -/
def findTextPart : List ContentPart → Option String
  | [] => none
  | p :: ps => if p.text ≠ "" then some p.text else findTextPart ps

/-- The parts list both scans read: the image scan guards with
`response.candidates && response.candidates.length > 0` and then reads
`response.candidates[0].content.parts`; the text scan reads
`response.candidates?.[0]?.content?.parts` — the same value. -/
def firstCandidateParts (resp : GenResponse) : Option (List ContentPart) :=
  match resp.candidates with
  | some (c0 :: _) => c0.parts
  | _ => none

/-- Response interpretation, lines 55-75 of the service module: scan the
first candidate's parts for inline image data, else for text, else fail
generically.  `Except.error` is a `throw` inside the `try` block. -/
def parseResponse (resp : GenResponse) : Except String String :=
  match firstCandidateParts resp with
  | some ps =>
    match findImagePart ps with
    | some d =>
      Except.ok ("data:" ++ jsOr d.mimeType "image/png" ++ ";base64," ++ d.data)
    | none =>
      match findTextPart ps with
      | some tx =>
        Except.error
          ("The model returned text instead of an image: \"" ++ jsSlice tx 100 ++ "...\"")
      | none => Except.error "No image data received from Gemini."
  | none => Except.error "No image data received from Gemini."

/-- The `try` block of `editImageWithGemini`: encode the file (the reader
may reject), build the request, invoke the remote service (which may
fault), and parse the response. -/
def tryEdit (file : JsFile) (prompt : String) (env : Env) : Except String String :=
  match env.readFault with
  | some m => Except.error m
  | none =>
    let imagePart := fileToPart file
    let _request := (imagePart, prompt)
    match env.callResult with
    | CallResult.fault m => Except.error m
    | CallResult.ok resp => parseResponse resp

/-- The function `editImageWithGemini`: the `try`/`catch` wrapper.  Every fault is
re-signalled as the uniform `GenError` with the fault's message, or the
generic fallback when the message is falsy. -/
def editImageWithGemini (file : JsFile) (prompt : String) (env : Env) :
    Except GenError String :=
  match tryEdit file prompt env with
  | Except.ok s => Except.ok s
  | Except.error m => Except.error ⟨jsOr m "Failed to generate image."⟩

/-! ## Session State Controller (`App.tsx`) -/

/-- The enumeration `AppStatus` from `types.ts`. -/
inductive AppStatus where
  | IDLE
  | PROCESSING
  | SUCCESS
  | ERROR
  deriving DecidableEq, Repr

/-- The App component's state: `inputImage` (file and preview URL),
`resultImage`, `prompt`, `status`, `errorMsg`. -/
structure AppState where
  inputFile : Option JsFile
  previewUrl : Option String
  resultImage : Option String
  prompt : String
  status : AppStatus
  errorMsg : Option String
  deriving DecidableEq, Repr

/-- The outcome handlers of `handleGenerate`: the `await` continuation and
the `catch` branch.  They update state unconditionally — there is no check
that the session is still Processing. -/
def applyOutcome (s : AppState) (r : Except GenError String) : AppState :=
  match r with
  | Except.ok url =>
    { s with resultImage := some url, status := AppStatus.SUCCESS }
  | Except.error e =>
    { s with status := AppStatus.ERROR,
             errorMsg := some (jsOr e.message "An unexpected error occurred.") }

/-- The function `handleGenerate`, run to completion of its single generation attempt.
The guard is exactly `if (!inputImage.file || !prompt.trim()) return;`.
The boolean records whether an outbound generation call was started. -/
def handleGenerate (s : AppState) (env : Env) : AppState × Bool :=
  match s.inputFile with
  | none => (s, false)
  | some f =>
    if jsTrim s.prompt = "" then (s, false)
    else
      let s1 := { s with status := AppStatus.PROCESSING, errorMsg := none,
                         resultImage := none }
      (applyOutcome s1 (editImageWithGemini f s.prompt env), true)

/-- The function `handleReset`: clears prompt and result, returns to Idle.  It touches
nothing else. -/
def handleReset (s : AppState) : AppState :=
  { s with prompt := "", resultImage := none, status := AppStatus.IDLE }

/-! ## Helper lemmas -/

lemma append_ne_empty (a b : String) (ha : a ≠ "") : a ++ b ≠ "" := by
  intro h
  apply ha
  have hd := congrArg String.data h
  rw [String.data_append] at hd
  have hnil : a.data = [] ∧ b.data = [] := List.append_eq_nil.mp (by simpa using hd)
  apply String.ext
  simpa using hnil.1

lemma jsOr_ne_empty (a b : String) (hb : b ≠ "") : jsOr a b ≠ "" := by
  unfold jsOr
  split
  · exact hb
  · assumption

lemma jsOr_of_ne (a b : String) (ha : a ≠ "") : jsOr a b = a := by
  unfold jsOr
  split
  · exact absurd (by assumption) ha
  · rfl


lemma parseResponse_ok_shape (resp : GenResponse) (u : String)
    (h : parseResponse resp = Except.ok u) :
    ∃ m d, u = "data:" ++ m ++ ";base64," ++ d := by
  unfold parseResponse at h
  split at h
  · split at h
    · exact ⟨_, _, (Except.ok.inj h).symm⟩
    · split at h <;> exact Except.noConfusion h
  · exact Except.noConfusion h

lemma tryEdit_ok_shape (file : JsFile) (prompt : String) (env : Env) (u : String)
    (h : tryEdit file prompt env = Except.ok u) :
    ∃ m d, u = "data:" ++ m ++ ";base64," ++ d := by
  unfold tryEdit at h
  split at h
  · exact Except.noConfusion h
  · split at h
    · exact Except.noConfusion h
    · exact parseResponse_ok_shape _ u h

lemma editImageWithGemini_ok_ne_empty (file : JsFile) (prompt : String)
    (env : Env) (u : String)
    (h : editImageWithGemini file prompt env = Except.ok u) : u ≠ "" := by
  unfold editImageWithGemini at h
  split at h
  · obtain ⟨m, d, hshape⟩ := tryEdit_ok_shape file prompt env _ (by assumption)
    rw [← Except.ok.inj h, hshape]
    exact append_ne_empty _ _ (append_ne_empty _ _ (append_ne_empty _ _ (by decide)))
  · exact Except.noConfusion h

lemma editImageWithGemini_error_ne_empty (file : JsFile) (prompt : String)
    (env : Env) (e : GenError)
    (h : editImageWithGemini file prompt env = Except.error e) :
    e.message ≠ "" := by
  unfold editImageWithGemini at h
  split at h
  · exact Except.noConfusion h
  · rw [← Except.error.inj h]
    exact jsOr_ne_empty _ _ (by decide)

lemma findImagePart_eq_none (ps : List ContentPart)
    (h : ∀ p ∈ ps, ∀ d, p.inlineData = some d → d.data = "") :
    findImagePart ps = none := by
  induction ps with
  | nil => rfl
  | cons p ps ih =>
    have hrest := ih (fun q hq => h q (List.mem_cons_of_mem _ hq))
    rcases hd : p.inlineData with _ | d
    · simp [findImagePart, hd, hrest]
    · have : d.data = "" := h p (List.mem_cons_self _ _) d hd
      simp [findImagePart, hd, this, hrest]

lemma findTextPart_eq_none (ps : List ContentPart)
    (h : ∀ p ∈ ps, p.text = "") :
    findTextPart ps = none := by
  induction ps with
  | nil => rfl
  | cons p ps ih =>
    have hrest := ih (fun q hq => h q (List.mem_cons_of_mem _ hq))
    have : p.text = "" := h p (List.mem_cons_self _ _)
    simp [findTextPart, this, hrest]

/-! ## Concrete fixtures -/

/-- A small PNG file. -/
def fileA : JsFile := ⟨[65], "image/png"⟩

/-- A text-only content part. -/
def partText (t : String) : ContentPart := ⟨none, t⟩

/-- An inline-image content part. -/
def partImage (d m : String) : ContentPart := ⟨some ⟨d, m⟩, ""⟩

/-- Response whose first candidate carries a jpeg inline image. -/
def respJpeg : GenResponse := ⟨some [⟨some [partImage "QQ==" "image/jpeg"]⟩]⟩

/-- Environment delivering `respJpeg`. -/
def envJpeg : Env := ⟨none, CallResult.ok respJpeg⟩

/-- Response whose first candidate has only text and whose second candidate
has the inline image. -/
def respLateImage : GenResponse :=
  ⟨some [⟨some [partText "no"]⟩, ⟨some [partImage "QQ==" "image/jpeg"]⟩]⟩

/-- Environment delivering `respLateImage`. -/
def envLateImage : Env := ⟨none, CallResult.ok respLateImage⟩

/-- Environment where the file read rejects without a message. -/
def envReadFault : Env := ⟨some "", CallResult.fault "x"⟩

/-- Environment where the file read rejects with message `boom`. -/
def envBoom : Env := ⟨some "boom", CallResult.fault ""⟩

/-- A valid Idle session: image selected, non-blank instruction. -/
def sIdleValid : AppState :=
  ⟨some fileA, some "blob:1", none, "edit", AppStatus.IDLE, none⟩

/-- A Processing session with the same valid inputs. -/
def sProcessingValid : AppState :=
  ⟨some fileA, some "blob:1", none, "edit", AppStatus.PROCESSING, none⟩

/-- A session that has moved on (reset to Idle) while a call was in
flight. -/
def sMovedOn : AppState :=
  ⟨some fileA, some "blob:1", none, "", AppStatus.IDLE, none⟩

/-- A resting Success session whose instruction is whitespace-only. -/
def sBlankPrompt : AppState :=
  ⟨some fileA, some "blob:1", some "r", "   ", AppStatus.SUCCESS, some "old"⟩

/-- A long refusal text (more than 100 characters). -/
def refusalText : String :=
  "Sorry, policy reasons prevent this request from being fulfilled; this additional explanatory padding extends the text well past one hundred characters in total length."

/-- Response whose only candidate carries only the long refusal text. -/
def respRefusal : GenResponse := ⟨some [⟨some [partText refusalText]⟩]⟩

/-! ## Claims -/

/-- Claim C1, counterexample: in a Processing session with a selected image
and a non-blank instruction, `submit()` is not a no-op — it starts another
outbound generation call and changes the state. -/
theorem submit_processing_counterexample :
    sProcessingValid.status = AppStatus.PROCESSING ∧
    sProcessingValid.inputFile.isSome = true ∧
    jsTrim sProcessingValid.prompt ≠ "" ∧
    (handleGenerate sProcessingValid envBoom).2 = true ∧
    (handleGenerate sProcessingValid envBoom).1 ≠ sProcessingValid := by
  decide

/-- Claim C1 (amended): the `submit()` guard consults only the input image
and the trimmed instruction, never the phase; calling it while Processing
with valid inputs starts another outbound generation call, so two rapid
submits from a valid Idle state start two calls. -/
theorem submit_guard_ignores_processing (s : AppState) (env : Env)
    (hs : s.status = AppStatus.PROCESSING)
    (hf : s.inputFile.isSome = true) (hp : jsTrim s.prompt ≠ "") :
    (handleGenerate s env).2 = true := by
  rcases hfile : s.inputFile with _ | f
  · rw [hfile] at hf
    exact Bool.noConfusion hf
  · simp [handleGenerate, hfile, hp]

/-- Claim C1 witness. -/
theorem submit_guard_ignores_processing_witness :
    (handleGenerate sProcessingValid envBoom).2 = true :=
  submit_guard_ignores_processing sProcessingValid envBoom rfl rfl (by decide)

/-- Claim C2, counterexample: a late success outcome arriving after the
session has moved on to Idle is not discarded — the handler still rewrites
the fields although the phase is not Processing. -/
theorem stale_outcome_counterexample :
    sMovedOn.status ≠ AppStatus.PROCESSING ∧
    applyOutcome sMovedOn (Except.ok "data:image/png;base64,QQ==") ≠ sMovedOn ∧
    (applyOutcome sMovedOn (Except.ok "data:image/png;base64,QQ==")).resultImage
      ≠ sMovedOn.resultImage := by
  decide

/-- Claim C2 (amended): the outcome handlers apply the outcome
unconditionally, with no staleness check on the phase: a success sets
resultImage and phase Success, a failure sets errorMessage and phase Error,
whatever the current phase; input image, preview and instruction are left
untouched. -/
theorem outcome_applied_unconditionally (s : AppState)
    (r : Except GenError String) :
    ((applyOutcome s r).inputFile = s.inputFile ∧
     (applyOutcome s r).previewUrl = s.previewUrl ∧
     (applyOutcome s r).prompt = s.prompt) ∧
    (∀ u, r = Except.ok u →
      (applyOutcome s r).status = AppStatus.SUCCESS ∧
      (applyOutcome s r).resultImage = some u ∧
      (applyOutcome s r).errorMsg = s.errorMsg) ∧
    (∀ e, r = Except.error e →
      (applyOutcome s r).status = AppStatus.ERROR ∧
      (applyOutcome s r).errorMsg =
        some (jsOr e.message "An unexpected error occurred.") ∧
      (applyOutcome s r).resultImage = s.resultImage) := by
  refine ⟨?_, ?_, ?_⟩
  · cases r <;> simp [applyOutcome]
  · rintro u rfl
    simp [applyOutcome]
  · rintro e rfl
    simp [applyOutcome]

/-- Claim C2 witness. -/
theorem outcome_applied_unconditionally_witness :
    (applyOutcome sMovedOn (Except.ok "u")).status = AppStatus.SUCCESS ∧
    (applyOutcome sMovedOn (Except.ok "u")).resultImage = some "u" ∧
    (applyOutcome sMovedOn (Except.ok "u")).errorMsg = sMovedOn.errorMsg :=
  (outcome_applied_unconditionally sMovedOn (Except.ok "u")).2.1 "u" rfl

/-- Claim C3: the Generation Client always resolves (it is a total
function) and never lets a raw fault escape: every outcome is a success or
the uniform error, the error message is never empty, and an injected fault
(at the file read or the remote call) surfaces as the uniform error
carrying the fault message, or the generic fallback when the fault has no
message. -/
theorem client_never_raw_fault (file : JsFile) (prompt : String) (env : Env) :
    ((∃ u, editImageWithGemini file prompt env = Except.ok u) ∨
     (∃ m, editImageWithGemini file prompt env = Except.error ⟨m⟩ ∧ m ≠ "")) ∧
    (∀ fm, env.readFault = some fm →
      editImageWithGemini file prompt env =
        Except.error ⟨jsOr fm "Failed to generate image."⟩) ∧
    (∀ fm, env.readFault = none → env.callResult = CallResult.fault fm →
      editImageWithGemini file prompt env =
        Except.error ⟨jsOr fm "Failed to generate image."⟩) := by
  refine ⟨?_, ?_, ?_⟩
  · rcases he : editImageWithGemini file prompt env with e | u
    · exact Or.inr ⟨e.message, rfl,
        editImageWithGemini_error_ne_empty file prompt env e he⟩
    · exact Or.inl ⟨u, rfl⟩
  · intro fm hr
    simp [editImageWithGemini, tryEdit, hr]
  · intro fm hr hc
    simp [editImageWithGemini, tryEdit, hr, hc]

/-- Claim C3 witness. -/
theorem client_never_raw_fault_witness :
    editImageWithGemini fileA "edit" envReadFault =
      Except.error ⟨jsOr "" "Failed to generate image."⟩ :=
  (client_never_raw_fault fileA "edit" envReadFault).2.1 "" rfl

/-- Claim C4: from any state with a selected image, a non-blank
instruction, and a phase other than Processing, a completed `submit()`
ends in exactly Success with a non-empty resultImage or Error with a
non-empty errorMessage — never in Idle or Processing. -/
theorem submit_completes (s : AppState) (env : Env)
    (hf : s.inputFile.isSome = true) (hp : jsTrim s.prompt ≠ "")
    (hs : s.status ≠ AppStatus.PROCESSING) :
    (((handleGenerate s env).1.status = AppStatus.SUCCESS ∧
      ∃ u, (handleGenerate s env).1.resultImage = some u ∧ u ≠ "") ∨
     ((handleGenerate s env).1.status = AppStatus.ERROR ∧
      ∃ m, (handleGenerate s env).1.errorMsg = some m ∧ m ≠ "")) ∧
    (handleGenerate s env).1.status ≠ AppStatus.IDLE ∧
    (handleGenerate s env).1.status ≠ AppStatus.PROCESSING := by
  rcases hfile : s.inputFile with _ | f
  · rw [hfile] at hf
    exact Bool.noConfusion hf
  · have hmain : handleGenerate s env =
        (applyOutcome
          { s with status := AppStatus.PROCESSING, errorMsg := none,
                   resultImage := none }
          (editImageWithGemini f s.prompt env), true) := by
      simp [handleGenerate, hfile, hp]
    rcases he : editImageWithGemini f s.prompt env with e | u
    · have hne : jsOr e.message "An unexpected error occurred." ≠ "" :=
        jsOr_ne_empty _ _ (by decide)
      rw [hmain, he]
      simp [applyOutcome]
      exact hne
    · have hne := editImageWithGemini_ok_ne_empty f s.prompt env u he
      rw [hmain, he]
      simp [applyOutcome]
      exact hne

/-- Claim C4 witness. -/
theorem submit_completes_witness :
    (((handleGenerate sIdleValid envBoom).1.status = AppStatus.SUCCESS ∧
      ∃ u, (handleGenerate sIdleValid envBoom).1.resultImage = some u ∧ u ≠ "") ∨
     ((handleGenerate sIdleValid envBoom).1.status = AppStatus.ERROR ∧
      ∃ m, (handleGenerate sIdleValid envBoom).1.errorMsg = some m ∧ m ≠ "")) ∧
    (handleGenerate sIdleValid envBoom).1.status ≠ AppStatus.IDLE ∧
    (handleGenerate sIdleValid envBoom).1.status ≠ AppStatus.PROCESSING :=
  submit_completes sIdleValid envBoom rfl (by decide) (by decide)

/-- Claim C5: when the first candidate's parts hold no inline image data
but do hold text, the client fails with a message embedding exactly the
first 100 characters of that text followed by the ellipsis marker, and
yields no image result. -/
theorem client_text_refusal (file : JsFile) (prompt : String)
    (resp : GenResponse) (ps : List ContentPart) (t : String)
    (hp : firstCandidateParts resp = some ps)
    (hnoimg : findImagePart ps = none)
    (ht : findTextPart ps = some t) :
    editImageWithGemini file prompt ⟨none, CallResult.ok resp⟩ =
      Except.error
        ⟨"The model returned text instead of an image: \"" ++
          jsSlice t 100 ++ "...\""⟩ := by
  have hmsg : ("The model returned text instead of an image: \"" ++
      jsSlice t 100 ++ "...\"") ≠ "" :=
    append_ne_empty _ _ (append_ne_empty _ _ (by decide))
  simp [editImageWithGemini, tryEdit, parseResponse, hp, hnoimg, ht,
        jsOr_of_ne _ _ hmsg]

set_option maxRecDepth 8192 in
/-- Claim C5 witness. -/
theorem client_text_refusal_witness :
    editImageWithGemini fileA "edit" ⟨none, CallResult.ok respRefusal⟩ =
      Except.error
        ⟨"The model returned text instead of an image: \"" ++
          jsSlice refusalText 100 ++ "...\""⟩ :=
  client_text_refusal fileA "edit" respRefusal [partText refusalText]
    refusalText rfl rfl (by decide)

/-- Claim C6, counterexample: a response carrying an inline-image part only
in its second candidate satisfies the claim's premise, yet the client does
not return a Success — it only ever inspects the first candidate. -/
theorem client_late_candidate_counterexample :
    (∃ c ∈ respLateImage.candidates.getD [], ∃ ps, c.parts = some ps ∧
      ∃ p ∈ ps, ∃ d, p.inlineData = some d ∧ d.data ≠ "") ∧
    ∀ u, editImageWithGemini fileA "edit" envLateImage ≠ Except.ok u := by
  constructor
  · decide
  · intro u h
    have heval : editImageWithGemini fileA "edit" envLateImage =
        Except.error
          ⟨"The model returned text instead of an image: \"no...\""⟩ := by
      rfl
    rw [heval] at h
    exact Except.noConfusion h

/-- Claim C6 (amended): for every response whose first candidate's parts
include an inline-image-data part, the client returns a Success built from
the first such part: a data URI with its declared mime type (default
`image/png` when absent) and its base64 payload. -/
theorem client_first_candidate_image (file : JsFile) (prompt : String)
    (resp : GenResponse) (ps : List ContentPart) (d : InlineData)
    (hp : firstCandidateParts resp = some ps)
    (himg : findImagePart ps = some d) :
    editImageWithGemini file prompt ⟨none, CallResult.ok resp⟩ =
      Except.ok ("data:" ++ jsOr d.mimeType "image/png" ++ ";base64," ++ d.data) := by
  simp [editImageWithGemini, tryEdit, parseResponse, hp, himg]

/-- Claim C6 witness: the jpeg `QQ==` instance yields the literal data
URI. -/
theorem client_first_candidate_image_witness :
    editImageWithGemini fileA "edit" ⟨none, CallResult.ok respJpeg⟩ =
      Except.ok "data:image/jpeg;base64,QQ==" := by
  have h := client_first_candidate_image fileA "edit" respJpeg
    [partImage "QQ==" "image/jpeg"] ⟨"QQ==", "image/jpeg"⟩ rfl (by decide)
  rw [h]
  rfl

/-- Claim C7: a response with no candidates, or no parts, or neither
inline image data nor text in any part, makes the client fail with the
no-image-data message. -/
theorem client_no_content (file : JsFile) (prompt : String)
    (resp : GenResponse)
    (h : resp.candidates = none ∨ resp.candidates = some [] ∨
         (∀ c ∈ resp.candidates.getD [], c.parts = none) ∨
         (∀ c ∈ resp.candidates.getD [], ∀ ps, c.parts = some ps →
            ∀ p ∈ ps, (∀ d, p.inlineData = some d → d.data = "") ∧
              p.text = "")) :
    editImageWithGemini file prompt ⟨none, CallResult.ok resp⟩ =
      Except.error ⟨"No image data received from Gemini."⟩ := by
  have hgen : ("No image data received from Gemini." : String) ≠ "" := by decide
  rcases hc : resp.candidates with _ | cl
  · simp [editImageWithGemini, tryEdit, parseResponse, firstCandidateParts,
          hc, jsOr_of_ne _ _ hgen]
  · rcases cl with _ | ⟨c0, cs⟩
    · simp [editImageWithGemini, tryEdit, parseResponse, firstCandidateParts,
            hc, jsOr_of_ne _ _ hgen]
    · rcases h with h | h | h | h
      · rw [hc] at h
        exact Option.noConfusion h
      · rw [hc] at h
        simp at h
      · have hc0 : c0.parts = none := h c0 (by rw [hc]; simp)
        simp [editImageWithGemini, tryEdit, parseResponse, firstCandidateParts,
              hc, hc0, jsOr_of_ne _ _ hgen]
      · rcases hcp : c0.parts with _ | ps
        · simp [editImageWithGemini, tryEdit, parseResponse,
                firstCandidateParts, hc, hcp, jsOr_of_ne _ _ hgen]
        · have hps := h c0 (by rw [hc]; simp) ps hcp
          have hni := findImagePart_eq_none ps (fun p hm d hd => (hps p hm).1 d hd)
          have hnt := findTextPart_eq_none ps (fun p hm => (hps p hm).2)
          simp [editImageWithGemini, tryEdit, parseResponse,
                firstCandidateParts, hc, hcp, hni, hnt, jsOr_of_ne _ _ hgen]

/-- Claim C7 witness: a response with no candidates at all. -/
theorem client_no_content_witness :
    editImageWithGemini fileA "edit" ⟨none, CallResult.ok ⟨none⟩⟩ =
      Except.error ⟨"No image data received from Gemini."⟩ :=
  client_no_content fileA "edit" ⟨none⟩ (Or.inl rfl)

/-- Claim C8: when the input image is absent or the instruction trims to
empty, `submit()` is a silent no-op: the whole state is returned unchanged
and no outbound call is started. -/
theorem submit_noop_when_invalid (s : AppState) (env : Env)
    (h : s.inputFile = none ∨ jsTrim s.prompt = "") :
    handleGenerate s env = (s, false) := by
  rcases h with h | h
  · simp [handleGenerate, h]
  · rcases hf : s.inputFile with _ | f
    · simp [handleGenerate, hf]
    · simp [handleGenerate, hf, h]

/-- Claim C8 witness: whitespace-only instruction in a resting Success
state. -/
theorem submit_noop_when_invalid_witness :
    handleGenerate sBlankPrompt envBoom = (sBlankPrompt, false) :=
  submit_noop_when_invalid sBlankPrompt envBoom (Or.inr (by decide))

/-- Claim C9: for every readable file whose media type contains no comma,
the Encoder's part round-trips — base64-decoding its payload returns the
original bytes — and its mimeType is the file's declared type unchanged. -/
theorem encoder_roundtrip (f : JsFile) (hb : ∀ b ∈ f.bytes, b < 256)
    (hm : ',' ∉ f.type.toList) :
    base64DecodeChars (fileToPart f).data = f.bytes ∧
    (fileToPart f).mimeType = f.type := by
  constructor
  · rw [fileToPart_data f hm]
    exact base64_roundtrip f.bytes hb
  · rfl

/-- Claim C9 witness. -/
theorem encoder_roundtrip_witness :
    base64DecodeChars (fileToPart ⟨[77, 97, 110], "image/png"⟩).data =
      [77, 97, 110] ∧
    (fileToPart ⟨[77, 97, 110], "image/png"⟩).mimeType = "image/png" :=
  encoder_roundtrip ⟨[77, 97, 110], "image/png"⟩ (by decide) (by decide)

/-- Claim C10: `reset()` leaves errorMessage, the input image and its
preview handle unchanged, clears the instruction and the result image, and
returns the phase to Idle — so a reset from the Error phase goes to Idle
with the previous error text still stored. -/
theorem reset_preserves_error_and_input (s : AppState) :
    (handleReset s).errorMsg = s.errorMsg ∧
    (handleReset s).inputFile = s.inputFile ∧
    (handleReset s).previewUrl = s.previewUrl ∧
    (handleReset s).prompt = "" ∧
    (handleReset s).resultImage = none ∧
    (handleReset s).status = AppStatus.IDLE := by
  simp [handleReset]
